import Mathlib

/-!
Shallow embedding of the sp-rest-api.js library (SharePoint REST API client)
and proofs of the specification claims about it.

The embedding models JavaScript dynamic values with the inductive `JSVal`,
the jQuery transport boundary as an abstract `Server` function, and each
library operation as a Lean function producing the ordered trace of
transport calls and continuation invocations, together with an outcome
(normal completion, an uncaught synchronous throw, or fuel exhaustion for
the unbounded pagination recursion).
-/

namespace SpJs

/-- Model of a JavaScript value, as far as the library manipulates them:
`undefined` is the JavaScript `undefined`. Functions stored in option objects
are modelled as opaque tags (`fn`). -/
inductive JSVal where
  | undefined : JSVal
  | null : JSVal
  | bool : Bool → JSVal
  | num : Int → JSVal
  | str : String → JSVal
  | arr : List JSVal → JSVal
  | obj : List (String × JSVal) → JSVal
  | fn : String → JSVal

/-- Association-list lookup (first binding wins), used for object fields
and request headers. -/
def alookup {α : Type} (k : String) : List (String × α) → Option α
  | [] => none
  | (k2, v) :: t => if k2 = k then some v else alookup k t

/-- JavaScript truthiness: `undefined`, `null`, `false`, `0`, and the empty
string are falsy; objects, arrays and functions are truthy. -/
def truthy : JSVal → Bool
  | .undefined => false
  | .null => false
  | .bool b => b
  | .num n => n != 0
  | .str s => s != ""
  | .arr _ => true
  | .obj _ => true
  | .fn _ => true

/-- Property read `v.k` that cannot throw: yields `undefined` when the
receiver is not an object or lacks the key. Used to model accesses that
the source guards with truthiness checks. -/
def propD : JSVal → String → JSVal
  | .obj fs, k => (alookup k fs).getD .undefined
  | _, _ => .undefined

/-- Property read `v.k` with JavaScript throwing semantics: reading a
property of `undefined` or `null` throws a TypeError; reading a missing
property of anything else yields `undefined`. -/
def propT : JSVal → String → Except String JSVal
  | .undefined, _ => .error "TypeError"
  | .null, _ => .error "TypeError"
  | .obj fs, k => .ok ((alookup k fs).getD .undefined)
  | _, _ => .ok .undefined

/-- JavaScript string coercion, to the extent the library exercises it
(next-page links and item identifiers interpolated into URLs are strings
or numbers). -/
def jsToString : JSVal → String
  | .undefined => "undefined"
  | .null => "null"
  | .bool b => if b then "true" else "false"
  | .num n => toString n
  | .str s => s
  | .arr _ => ""
  | .obj _ => "[object Object]"
  | .fn _ => ""

/-- `Array.prototype.concat` with a single argument: an array argument is
spread, any other value is appended as a single element. -/
def jsConcat (buffer : List JSVal) : JSVal → List JSVal
  | .arr xs => buffer ++ xs
  | v => buffer ++ [v]

/-- Sets field `k` of an object's field list, replacing an existing binding
or appending a new one (JavaScript property assignment on an object). -/
def setKey : List (String × JSVal) → String → JSVal → List (String × JSVal)
  | [], k, v => [(k, v)]
  | (k2, v2) :: t, k, v => if k2 = k then (k, v) :: t else (k2, v2) :: setKey t k v

/-- Property assignment `v.k = x`: only object receivers are updated
(assignment to a primitive is silently ignored in sloppy mode). -/
def setProp (v : JSVal) (k : String) (x : JSVal) : JSVal :=
  match v with
  | .obj fs => .obj (setKey fs k x)
  | other => other

end SpJs

namespace SpJs

/-! ## String polyfills from the source -/

/-- Splits the longest leading run of decimal digits, as the regex
`(\d+)` group would match. -/
def takeDigits : List Char → List Char × List Char
  | [] => ([], [])
  | c :: t =>
    if c.isDigit then
      ((c :: (takeDigits t).1), (takeDigits t).2)
    else
      ([], c :: t)

/-- Numeric value of a digit run (the regex capture `number` coerced by
array indexing). -/
def digitsToNat (ds : List Char) : Nat :=
  ds.foldl (fun acc c => acc * 10 + (c.toNat - 48)) 0

/-- Core of `String.prototype.format`: replaces every occurrence of
a brace-delimited decimal index with the corresponding argument when it
exists, and leaves the matched text in place otherwise, scanning left to
right as the global regex replace does. -/
def formatCore (args : List String) : Nat → List Char → List Char
  | 0, l => l
  | _, [] => []
  | fuel + 1, c :: rest =>
    if c = '\x7b' then
      match takeDigits rest with
      | ([], _) => c :: formatCore args fuel rest
      | (d :: ds, rest2) =>
        match rest2 with
        | '\x7d' :: rest3 =>
          (match args.get? (digitsToNat (d :: ds)) with
           | some a => a.data
           | none => c :: (d :: ds) ++ ['\x7d']) ++ formatCore args fuel rest3
        | _ => c :: formatCore args fuel rest
    else
      c :: formatCore args fuel rest

/-- `String.prototype.format` polyfill from the source. The fuel argument
bounds the scan; each step consumes at least one character, so the input
length is always enough. -/
def jsFormat (tmpl : String) (args : List String) : String :=
  String.mk (formatCore args tmpl.data.length tmpl.data)

/-- Substring test on character lists, the behaviour of the
`String.prototype.includes` polyfill in the source. -/
def containsSub (pat : List Char) : List Char → Bool
  | [] => pat.isEmpty
  | a :: t => pat.isPrefixOf (a :: t) || containsSub pat t

/-- `String.prototype.includes` (single-argument form used by the source). -/
def jsIncludes (s pat : String) : Bool :=
  containsSub pat.data s.data

/-- Character class `\w` of the regex engine. -/
def isWordChar (c : Char) : Bool :=
  (('a' ≤ c && c ≤ 'z') || ('A' ≤ c && c ≤ 'Z') || ('0' ≤ c && c ≤ '9') || c = '_')

/-- Character class `[a-z]`. -/
def isLowerAZ (c : Char) : Bool :=
  'a' ≤ c && c ≤ 'z'

/-- Core of `String.prototype.capitalize`: uppercases every `[a-z]`
character preceded by a word boundary `\b`, i.e. at the start of the
string or after a non-word character. The boundary is judged on the
original characters, as the regex engine does. -/
def capitalizeCore : Bool → List Char → List Char
  | _, [] => []
  | prevWord, c :: t =>
    (if !prevWord && isLowerAZ c then c.toUpper else c) :: capitalizeCore (isWordChar c) t

/-- `String.prototype.capitalize` polyfill from the source: capitalizes the
first letter of each word. -/
def jsCapitalize (s : String) : String :=
  String.mk (capitalizeCore false s.data)

end SpJs

namespace SpRestApi

open SpJs

/-! ## Constants from the source -/

/-- `SpRestApi.Verbosity.VERBOSE`. -/
def Verbosity.VERBOSE : String := "application/json;odata=verbose"

/-- `SpRestApi.Verbosity.MINIMAL`. -/
def Verbosity.MINIMAL : String := "application/json;odata=minimalmetadata"

/-- `SpRestApi.Verbosity.COMPACT`. -/
def Verbosity.COMPACT : String := "application/json;odata=nometadata"

/-- Default URL template `urls.list`. -/
def listUrlTemplate : String := "/_api/web/lists/getbytitle(\x27\x7b0\x7d\x27)/items"

/-- Default URL template `urls.item`. -/
def itemUrlTemplate : String := "/_api/web/lists/getbytitle(\x27\x7b0\x7d\x27)/items(\x7b1\x7d)"

/-- Default URL template `urls.user`. -/
def userUrlTemplate : String := "/_api/Web/GetUserById(\x7b0\x7d)?$expand=Groups"

/-- The typed view of the option fields that the request-issuing operations
read (`this.options` at the time of the call). Callbacks are not fields
here: continuation invocations are recorded as trace events instead. -/
structure Options where
  listTitle : String
  maxItems : Nat
  recursiveFetch : Bool
  verbosity : String
  siteUrl : String
  token : String
  urlList : String
  urlItem : String
  urlUser : String

/-! ## URL construction -/

/-- `SpRestApi.prototype.addMaxItems`: appends the `$top=` parameter,
preceded by a question mark or ampersand depending on whether the URL
already contains a question mark. -/
def addMaxItems (opts : Options) (url : String) : String :=
  let url2 := url ++ (if jsIncludes url "?" then "&" else "?")
  url2 ++ "$top=" ++ toString opts.maxItems

/-- `SpRestApi.prototype.generateGetAllListItemsUrl`. -/
def generateGetAllListItemsUrl (opts : Options) : String :=
  addMaxItems opts (opts.siteUrl ++ jsFormat opts.urlList [opts.listTitle])

/-- `SpRestApi.prototype.generateSingleListItemUrl`. -/
def generateSingleListItemUrl (opts : Options) (itemId : JSVal) : String :=
  opts.siteUrl ++ jsFormat opts.urlItem [opts.listTitle, jsToString itemId]

/-! ## List item type name -/

/-- One chained `String.prototype.replace(/c/g, rep)` call on character
lists: every occurrence of the character `c` becomes `rep`. -/
def repAll (c : Char) (rep : List Char) : List Char → List Char
  | [] => []
  | a :: t => (if a = c then rep else [a]) ++ repAll c rep t

/-- `SpRestApi.replaceSharepointSpecialChars`: underscore, then space,
then ampersand, in that chained order. -/
def replaceSharepointSpecialChars (inputString : String) : String :=
  String.mk (repAll '&' "_x0026_".data
    (repAll ' ' "_x0020_".data
      (repAll '_' "_x005f_".data inputString.data)))

/-- `SpRestApi.getListItemType`. -/
def getListItemType (listTitle : String) : String :=
  replaceSharepointSpecialChars ("SP.Data." ++ jsCapitalize listTitle ++ "ListItem")

/-! ## Transport boundary and traces -/

/-- The abstract transport collaborator: maps a request URL to either the
decoded success payload or the raw error payload delivered to the
failure callback. -/
def Server : Type := String → Except JSVal JSVal

/-- Observable events of one logical operation, in order: transport calls
(url and the logical method passed to `loadUrl`), appends of a page's raw
item container onto the accumulation buffer, and invocations of the
caller's success/failure continuations. -/
inductive TraceEv where
  | call : String → String → TraceEv
  | append : JSVal → TraceEv
  | onsuccess : JSVal → TraceEv
  | onerror : JSVal → TraceEv

/-- How an operation's synchronous control flow ended: normally, with an
uncaught JavaScript throw, or with the model's recursion fuel exhausted
(never the case with enough fuel). -/
inductive Outcome where
  | done : Outcome
  | threw : String → Outcome
  | outOfFuel : Outcome

/-- The page-extraction part of `SpRestApi.prototype.continueRecursiveFetch`
(lines choosing `data.d.results` / `data.d.__next` versus `data.value` /
`data['odata.nextLink']`), with JavaScript property-access throwing
semantics. -/
def extractPage (verbosity : String) (data : JSVal) : Except String (JSVal × JSVal) :=
  if verbosity = Verbosity.VERBOSE then
    match propT data "d" with
    | .error e => .error e
    | .ok d =>
      match propT d "results" with
      | .error e => .error e
      | .ok nd =>
        match propT d "__next" with
        | .error e => .error e
        | .ok nx => .ok (nd, nx)
  else
    match propT data "value" with
    | .error e => .error e
    | .ok nd =>
      match propT data "odata.nextLink" with
      | .error e => .error e
      | .ok nx => .ok (nd, nx)

/-- The response re-wrapping at the end of the recursive fetch: the
`entireData` structure built by `continueRecursiveFetch` before invoking
`onsuccess`. -/
def wrap (verbosity : String) (items : List JSVal) : JSVal :=
  if verbosity = Verbosity.VERBOSE then
    .obj [("d", .obj [("results", .arr items)])]
  else
    .obj [("value", .arr items)]

/-- `SpRestApi.prototype.continueRecursiveFetch`, run against an abstract
server. Arguments: fuel, the current `cachedListItems` buffer, and the
response `data` just delivered. Produces the trace of events from this
point on and the outcome. -/
def continueRecursiveFetch (opts : Options) (server : Server) :
    Nat → List JSVal → JSVal → List TraceEv × Outcome
  | fuel, cache, data =>
    match extractPage opts.verbosity data with
    | .error msg => ([], .threw msg)
    | .ok (newData, nextUrl) =>
      let cache2 := jsConcat cache newData
      if truthy nextUrl then
        match fuel with
        | 0 => ([.append newData], .outOfFuel)
        | fuel2 + 1 =>
          let url := jsToString nextUrl
          match server url with
          | .ok d =>
            let r := continueRecursiveFetch opts server fuel2 cache2 d
            (.append newData :: .call url "GET" :: r.1, r.2)
          | .error e =>
            ([.append newData, .call url "GET", .onerror e], .done)
      else
        ([.append newData, .onsuccess (wrap opts.verbosity cache2)], .done)

/-- `SpRestApi.prototype.getAllItems`: resets the buffer, issues the first
request, and either hands the response to `continueRecursiveFetch` (when
`recursiveFetch` is set) or to the caller's success continuation. -/
def getAllItems (opts : Options) (server : Server) (fuel : Nat) :
    List TraceEv × Outcome :=
  let url := generateGetAllListItemsUrl opts
  if opts.recursiveFetch then
    match server url with
    | .ok d =>
      let r := continueRecursiveFetch opts server fuel [] d
      (.call url "GET" :: r.1, r.2)
    | .error e => ([.call url "GET", .onerror e], .done)
  else
    match server url with
    | .ok d => ([.call url "GET", .onsuccess d], .done)
    | .error e => ([.call url "GET", .onerror e], .done)

/-! ## Single requests at the transport boundary -/

/-- One HTTP request as handed to the transport (the argument object of
the ajax call in `loadUrl`). The body is kept as the structured value
passed in; no claim inspects its serialized form. -/
structure Request where
  url : String
  type : String
  headers : List (String × String)
  body : Option JSVal

/-- The request-building part of `SpRestApi.prototype.loadUrl`: common
headers, then the DELETE/MERGE translation into a POST with the
`X-HTTP-METHOD` override and `IF-MATCH` headers. -/
def mkRequest (opts : Options) (url method : String) (data : Option JSVal) : Request :=
  let headers := [("Accept", opts.verbosity), ("X-RequestDigest", opts.token)]
  if method = "DELETE" || method = "MERGE" then
    { url := url, type := "POST",
      headers := headers ++ [("IF-MATCH", "*"), ("X-HTTP-METHOD", method)],
      body := data }
  else
    { url := url, type := method, headers := headers, body := data }

/-- Result of one non-paginated operation: the requests it issued, the
continuation invocations, and how its synchronous part ended. -/
structure OpResult where
  requests : List Request
  events : List TraceEv
  outcome : Outcome

/-- `SpRestApi.prototype.loadUrl` run against the abstract server, with the
jQuery ajax success/error callbacks forwarding to the given continuations
(recorded as trace events). -/
def runLoadUrl (opts : Options) (server : Server) (url method : String)
    (data : Option JSVal) : OpResult :=
  let req := mkRequest opts url method data
  match server url with
  | .ok d => ⟨[req], [.onsuccess d], .done⟩
  | .error e => ⟨[req], [.onerror e], .done⟩

/-- `SpRestApi.prototype.getItem`: throws synchronously on a falsy item id,
otherwise issues a GET for the single-item URL. -/
def getItem (opts : Options) (server : Server) (itemId : JSVal) : OpResult :=
  if !truthy itemId then
    ⟨[], [], .threw "The list item ID must not be empty."⟩
  else
    runLoadUrl opts server
      (opts.siteUrl ++ jsFormat opts.urlItem [opts.listTitle, jsToString itemId])
      "GET" none

/-- `SpRestApi.prototype.deleteItem`: no id validation; issues a logical
DELETE for the single-item URL. -/
def deleteItem (opts : Options) (server : Server) (itemId : JSVal) : OpResult :=
  runLoadUrl opts server (generateSingleListItemUrl opts itemId) "DELETE" none

/-- `SpRestApi.prototype.updateItem`: adds the `__metadata.type` field and
issues a logical MERGE for the single-item URL. -/
def updateItem (opts : Options) (server : Server) (listItemId : JSVal)
    (item : JSVal) : OpResult :=
  let item2 := setProp item "__metadata"
    (.obj [("type", .str (getListItemType opts.listTitle))])
  runLoadUrl opts server (generateSingleListItemUrl opts listItemId) "MERGE" (some item2)

/-- `SpRestApi.prototype.createItem`: adds the `__metadata.type` field and
POSTs to the all-items URL. -/
def createItem (opts : Options) (server : Server) (item : JSVal) : OpResult :=
  let item2 := setProp item "__metadata"
    (.obj [("type", .str (getListItemType opts.listTitle))])
  runLoadUrl opts server (generateGetAllListItemsUrl opts) "POST" (some item2)

/-- The success handler inside `SpRestApi.prototype.refreshDigest`. The
source executes `this.options = <FormDigestValue>` on the branch whose
truthiness-guarded shape matches, then runs the callback; with no match it
throws. The returned value is the new value of the `options` slot assigned
by the handler (the receiver of that assignment is discussed where this
definition is used). -/
def refreshDigestSuccess (data : JSVal) : Except String JSVal :=
  if truthy data && truthy (propD data "d") &&
      truthy (propD (propD data "d") "GetContextWebInformation") &&
      truthy (propD (propD (propD data "d") "GetContextWebInformation") "FormDigestValue") then
    .ok (propD (propD (propD data "d") "GetContextWebInformation") "FormDigestValue")
  else if truthy data && truthy (propD data "value") &&
      truthy (propD (propD data "value") "GetContextWebInformation") &&
      truthy (propD (propD (propD data "value") "GetContextWebInformation") "FormDigestValue") then
    .ok (propD (propD (propD data "value") "GetContextWebInformation") "FormDigestValue")
  else
    .error "Unable to obtain SharePoint authorization token."

/-! ## Option-object merging (constructor and config) -/

/-- jQuery `$.extend(target, src)`: writes each own property of `src` onto
`target`, in order, mutating and returning `target`. -/
def extend (target src : List (String × JSVal)) : List (String × JSVal) :=
  src.foldl (fun acc kv => setKey acc kv.1 kv.2) target

/-- The mutable state of one `SpRestApi` instance as far as option merging
is concerned. In the source `this.options` and `this.defaultOptions` end
up as the same mutated object; the model keeps both fields and shows they
stay equal. -/
structure SpInstance where
  defaultOptions : List (String × JSVal)
  options : List (String × JSVal)

/-- The `this.defaultOptions` object literal built by the constructor.
The ambient site URL and token come from the page context and the DOM. -/
def initialDefaults (ambientSiteUrl ambientToken : String) : List (String × JSVal) :=
  [("onsuccess", .fn "console.log"), ("onerror", .fn "console.log"),
   ("listTitle", .str ""), ("maxItems", .num 100),
   ("recursiveFetch", .bool true), ("verbosity", .str Verbosity.VERBOSE),
   ("siteUrl", .str ambientSiteUrl), ("token", .str ambientToken),
   ("urls", .obj [("list", .str listUrlTemplate), ("item", .str itemUrlTemplate),
     ("user", .str userUrlTemplate)])]

/-- The `SpRestApi` constructor: merges the supplied options into the
defaults object in place and points `this.options` at that same object. -/
def spRestApiNew (ambientSiteUrl ambientToken : String)
    (options : List (String × JSVal)) : SpInstance :=
  let merged := extend (initialDefaults ambientSiteUrl ambientToken) options
  ⟨merged, merged⟩

/-- `SpRestApi.prototype.config`: merges the supplied options into the
current `defaultOptions` object in place (which already carries any
earlier merges) and points `this.options` at that same object. -/
def SpInstance.config (s : SpInstance) (options : List (String × JSVal)) : SpInstance :=
  let merged := extend s.defaultOptions options
  ⟨merged, merged⟩

end SpRestApi

namespace SpRestApi

open SpJs

/-! ## Spec-side and scenario definitions used by the claims -/

/-- Single-pass escaping of one character, following the spec's words for
`toListItemTypeName`: underscore, space and ampersand each become their
fixed-width escape sequence, independently of the others. Equality of the
source's chained replacement with this per-character map is exactly the
statement that escaping introduced by an earlier pass is never re-escaped
by a later one. -/
def escapeChar (a : Char) : List Char :=
  if a = '_' then "_x005f_".data
  else if a = ' ' then "_x0020_".data
  else if a = '&' then "_x0026_".data
  else [a]

/-- Single-pass escaping of a whole string (spec-side characterization). -/
def escapeSinglePass : List Char → List Char
  | [] => []
  | a :: t => escapeChar a ++ escapeSinglePass t

/-- Number of (possibly overlapping) occurrences of `pat` in a character
list; used to state the page-limit-parameter claims. -/
def countOcc (pat : List Char) : List Char → Nat
  | [] => 0
  | a :: t => (if pat.isPrefixOf (a :: t) then 1 else 0) + countOcc pat t

/-- The value the last binding of `k` in an option list would leave on the
merge target (later bindings win, as sequential property writes do). -/
def lastLookup (k : String) : List (String × JSVal) → Option JSVal
  | [] => none
  | (k2, v) :: t =>
    match lastLookup k t with
    | some v2 => some v2
    | none => if k2 = k then some v else none

/-- Recognizes a failure-continuation invocation in a trace. -/
def isOnerror : TraceEv → Bool
  | .onerror _ => true
  | _ => false

/-- Recognizes a success-continuation invocation in a trace. -/
def isOnsuccess : TraceEv → Bool
  | .onsuccess _ => true
  | _ => false

/-- Recognizes a transport call in a trace. -/
def isCall : TraceEv → Bool
  | .call _ _ => true
  | _ => false

/-- A concrete configuration used to instantiate the universally
quantified theorems: the constructor defaults with a list title set. -/
def sampleOptions : Options :=
  { listTitle := "Projects", maxItems := 100, recursiveFetch := true,
    verbosity := Verbosity.VERBOSE, siteUrl := "", token := "tok",
    urlList := listUrlTemplate, urlItem := itemUrlTemplate,
    urlUser := userUrlTemplate }

/-- A transport that answers every URL with an empty-object success. -/
def sampleServer : Server := fun _ => .ok (JSVal.obj [])

/-- A transport that answers every URL with the same success payload. -/
def constServer (v : JSVal) : Server := fun _ => .ok v

/-- A verbose-style page: items under `d.results`, next link under
`d.__next` when present. -/
def verbosePage (items : List JSVal) (next : Option String) : JSVal :=
  match next with
  | some u => .obj [("d", .obj [("results", .arr items), ("__next", .str u)])]
  | none => .obj [("d", .obj [("results", .arr items)])]

/-- A transport serving three verbose pages linked by `d.__next`: the
initial all-items URL yields page one (linking to `u2`), `u2` yields page
two (linking to `u3`), and `u3` yields the final page. -/
def threePageServer (opts : Options) (a b c d e f : JSVal) (u2 u3 : String) : Server :=
  fun u =>
    if u = generateGetAllListItemsUrl opts then .ok (verbosePage [a, b] (some u2))
    else if u = u2 then .ok (verbosePage [c, d] (some u3))
    else if u = u3 then .ok (verbosePage [e, f] none)
    else .error (.str "404")

/-- A transport whose second page fails: the initial all-items URL yields
page one (linking to `u2`), and `u2` yields a transport error. -/
def secondPageFailServer (opts : Options) (a b : JSVal) (u2 : String) (err : JSVal) : Server :=
  fun u =>
    if u = generateGetAllListItemsUrl opts then .ok (verbosePage [a, b] (some u2))
    else .error err

/-- A token-context response in the verbose shape. -/
def tokenResponseVerbose : JSVal :=
  .obj [("d", .obj [("GetContextWebInformation",
    .obj [("FormDigestValue", .str "TOKEN123")])])]

/-- A token-context response in the non-verbose shape. -/
def tokenResponseNonVerbose : JSVal :=
  .obj [("value", .obj [("GetContextWebInformation",
    .obj [("FormDigestValue", .str "TOKEN456")])])]

end SpRestApi

namespace SpRestApi

open SpJs

/-! ## Helper lemmas: chained replacement versus single-pass escaping -/

theorem repAll_append (c : Char) (rep : List Char) (l1 l2 : List Char) :
    repAll c rep (l1 ++ l2) = repAll c rep l1 ++ repAll c rep l2 := by
  induction l1 with
  | nil => rfl
  | cons a t ih => simp [repAll, ih]

theorem escape_block (a : Char) :
    repAll '&' "_x0026_".data (repAll ' ' "_x0020_".data (repAll '_' "_x005f_".data [a]))
      = escapeChar a := by
  by_cases h1 : a = '_'
  · subst h1; decide
  · by_cases h2 : a = ' '
    · subst h2; decide
    · by_cases h3 : a = '&'
      · subst h3; decide
      · simp [repAll, escapeChar, h1, h2, h3]

theorem escape_chain (l : List Char) :
    repAll '&' "_x0026_".data (repAll ' ' "_x0020_".data (repAll '_' "_x005f_".data l))
      = escapeSinglePass l := by
  induction l with
  | nil => rfl
  | cons a t ih =>
    show repAll '&' _ (repAll ' ' _ (repAll '_' _ ([a] ++ t))) = _
    rw [repAll_append, repAll_append, repAll_append, ih, escape_block]
    rfl

/-! ## Helper lemmas: substring occurrence counting -/

theorem isPrefixOf_append_cons (sep : Char) (rest : List Char) :
    ∀ (pat x : List Char), sep ∉ pat →
      pat.isPrefixOf (x ++ sep :: rest) = pat.isPrefixOf x := by
  intro pat
  induction pat with
  | nil => intro x h; simp [List.isPrefixOf]
  | cons p ps ih =>
    intro x h
    cases x with
    | nil =>
      have hp : (p == sep) = false := by
        simp only [beq_eq_false_iff_ne, ne_eq]
        intro he
        exact h (by simp [he])
      simp [List.isPrefixOf, hp]
    | cons b x2 =>
      have h2 : sep ∉ ps := fun hm => h (List.mem_cons_of_mem p hm)
      simp [List.isPrefixOf, ih x2 h2]

theorem countOcc_cons (pat : List Char) (a : Char) (t : List Char) :
    countOcc pat (a :: t) = (if pat.isPrefixOf (a :: t) then 1 else 0) + countOcc pat t := rfl

theorem countOcc_append_cons (pat : List Char) (sep : Char) (rest : List Char)
    (h : sep ∉ pat) (l : List Char) :
    countOcc pat (l ++ sep :: rest) = countOcc pat l + countOcc pat (sep :: rest) := by
  induction l with
  | nil => simp [countOcc]
  | cons a t ih =>
    calc countOcc pat ((a :: t) ++ sep :: rest)
        = (if pat.isPrefixOf ((a :: t) ++ sep :: rest) then 1 else 0)
            + countOcc pat (t ++ sep :: rest) := by
          rw [List.cons_append, countOcc, ← List.cons_append]
      _ = (if pat.isPrefixOf (a :: t) then 1 else 0)
            + (countOcc pat t + countOcc pat (sep :: rest)) := by
          rw [isPrefixOf_append_cons sep rest pat (a :: t) h, ih]
      _ = countOcc pat (a :: t) + countOcc pat (sep :: rest) := by
          rw [countOcc_cons pat a t]
          omega

theorem countOcc_eq_zero_of_head_not_mem (p : Char) (ps l : List Char) (h : p ∉ l) :
    countOcc (p :: ps) l = 0 := by
  induction l with
  | nil => rfl
  | cons a t ih =>
    have hpa : (p == a) = false := by
      simp only [beq_eq_false_iff_ne, ne_eq]
      intro he
      exact h (by simp [he])
    simp [countOcc, List.isPrefixOf, hpa,
      ih (fun hm => h (List.mem_cons_of_mem a hm))]

theorem isPrefixOf_self_append (l z : List Char) : l.isPrefixOf (l ++ z) = true := by
  induction l with
  | nil => simp [List.isPrefixOf]
  | cons a t ih => simp [List.isPrefixOf, ih]

theorem digitChar_ne_dollar (n : Nat) : Nat.digitChar n ≠ '$' := by
  rcases Nat.lt_or_ge n 16 with h | h
  · interval_cases n <;> decide
  · have h16 : Nat.digitChar n = '*' := by
      unfold Nat.digitChar
      repeat rw [if_neg (by omega)]
    rw [h16]
    decide

theorem toDigitsCore_ne_dollar (f : Nat) :
    ∀ (n : Nat) (ds : List Char), (∀ c ∈ ds, c ≠ '$') →
      ∀ c ∈ Nat.toDigitsCore 10 f n ds, c ≠ '$' := by
  induction f with
  | zero =>
    intro n ds h c hc
    exact h c hc
  | succ f ih =>
    intro n ds h c hc
    rw [Nat.toDigitsCore] at hc
    have hcons : ∀ c2 ∈ (Nat.digitChar (n % 10) :: ds), c2 ≠ '$' := by
      intro c2 hc2
      rcases List.mem_cons.mp hc2 with h1 | h2
      · subst h1; exact digitChar_ne_dollar _
      · exact h c2 h2
    by_cases hz : n / 10 = 0
    · rw [if_pos hz] at hc
      exact hcons c hc
    · rw [if_neg hz] at hc
      exact ih (n / 10) (Nat.digitChar (n % 10) :: ds) hcons c hc

theorem repr_no_dollar (n : Nat) : '$' ∉ (Nat.repr n).data := by
  intro hmem
  exact toDigitsCore_ne_dollar (n + 1) n [] (by intro c hc; cases hc) '$' hmem rfl

theorem containsSub_singleton (c : Char) (l : List Char) :
    containsSub [c] l = true ↔ c ∈ l := by
  induction l with
  | nil => simp [containsSub]
  | cons a t ih =>
    simp [containsSub, List.isPrefixOf, ih]

end SpRestApi

namespace SpRestApi

open SpJs

theorem countOcc_top_one (digits : List Char) (h : '$' ∉ digits) :
    countOcc "$top=".data ("$top=".data ++ digits) = 1 := by
  have h0 : countOcc ['$', 't', 'o', 'p', '='] digits = 0 :=
    countOcc_eq_zero_of_head_not_mem '$' "top=".data digits h
  show countOcc ['$', 't', 'o', 'p', '='] (['$', 't', 'o', 'p', '='] ++ digits) = 1
  simp [countOcc, List.isPrefixOf, h0]

/-- C7: `getListItemType` capitalizes the first letter of each word of the
list title, prefixes the fixed `SP.Data.` namespace and suffixes the fixed
`ListItem` marker, then escapes underscore, space and ampersand in that
chained order; that chain coincides with a single per-character escaping
pass (`escapeSinglePass`), which is exactly the statement that the
underscores introduced by space-escaping are never themselves re-escaped.
The concrete conjunct shows one space yielding exactly one `_x0020_`. -/
theorem c7_list_item_type_escape_order (listTitle : String) :
    getListItemType listTitle
      = String.mk (escapeSinglePass
          ("SP.Data." ++ jsCapitalize listTitle ++ "ListItem").data) ∧
    getListItemType "My List" = "SP.Data.My_x0020_ListListItem" := by
  constructor
  · unfold getListItemType replaceSharepointSpecialChars
    rw [escape_chain]
  · rfl

/-- C8 counterexample: for a URL that already carries the page-limit
parameter, the claim that the result of `addMaxItems` contains exactly one
occurrence of it fails — the parameter is appended unconditionally, giving
two occurrences. -/
theorem c8_counterexample_top_duplicated :
    countOcc "$top=".data (addMaxItems sampleOptions "a?$top=1").data ≠ 1 := by
  have h : countOcc "$top=".data (addMaxItems sampleOptions "a?$top=1").data = 2 := by
    decide
  omega

/-- C8 (amended): `addMaxItems` appends the page-limit parameter preceded
by a question mark exactly when the URL contains no question mark and by
an ampersand otherwise; the result contains exactly one more occurrence of
the parameter than the input URL — hence exactly one only when the input
contains none. -/
theorem c8_addMaxItems_amended (opts : Options) (url : String) :
    addMaxItems opts url
      = url ++ (if '?' ∈ url.data then "&" else "?") ++ "$top=" ++ toString opts.maxItems ∧
    countOcc "$top=".data (addMaxItems opts url).data
      = countOcc "$top=".data url.data + 1 := by
  have hj : jsIncludes url "?" = true ↔ '?' ∈ url.data := containsSub_singleton '?' url.data
  have key : ∀ sepC : Char, sepC ∉ ['$', 't', 'o', 'p', '='] →
      countOcc "$top=".data
          (url.data ++ sepC :: ("$top=".data ++ (Nat.repr opts.maxItems).data))
        = countOcc "$top=".data url.data + 1 := by
    intro sepC hsep
    rw [countOcc_append_cons "$top=".data sepC _ hsep url.data]
    have hpre : ("$top=".data).isPrefixOf
        (sepC :: ("$top=".data ++ (Nat.repr opts.maxItems).data)) = false := by
      show (['$', 't', 'o', 'p', '=']).isPrefixOf _ = false
      have hds : ('$' == sepC) = false := by
        simp only [beq_eq_false_iff_ne, ne_eq]
        intro he
        exact hsep (by simp [← he])
      simp [List.isPrefixOf, hds]
    rw [countOcc_cons, hpre, if_neg (by simp),
      countOcc_top_one (Nat.repr opts.maxItems).data (repr_no_dollar opts.maxItems)]
  by_cases hq : '?' ∈ url.data
  · have hji : jsIncludes url "?" = true := hj.mpr hq
    have e1 : addMaxItems opts url = url ++ "&" ++ "$top=" ++ toString opts.maxItems := by
      simp [addMaxItems, hji]
    refine ⟨by rw [e1, if_pos hq], ?_⟩
    rw [e1]
    have e2 : (url ++ "&" ++ "$top=" ++ toString opts.maxItems).data
        = url.data ++ '&' :: ("$top=".data ++ (Nat.repr opts.maxItems).data) := by
      show ((url.data ++ ['&']) ++ ['$', 't', 'o', 'p', '=']) ++ (Nat.repr opts.maxItems).data
          = url.data ++ '&' :: (['$', 't', 'o', 'p', '='] ++ (Nat.repr opts.maxItems).data)
      simp
    rw [e2]
    exact key '&' (by decide)
  · have hji : jsIncludes url "?" = false := by
      rcases h2 : jsIncludes url "?" with _ | _
      · rfl
      · exact absurd (hj.mp h2) hq
    have e1 : addMaxItems opts url = url ++ "?" ++ "$top=" ++ toString opts.maxItems := by
      simp [addMaxItems, hji]
    refine ⟨by rw [e1, if_neg hq], ?_⟩
    rw [e1]
    have e2 : (url ++ "?" ++ "$top=" ++ toString opts.maxItems).data
        = url.data ++ '?' :: ("$top=".data ++ (Nat.repr opts.maxItems).data) := by
      show ((url.data ++ ['?']) ++ ['$', 't', 'o', 'p', '=']) ++ (Nat.repr opts.maxItems).data
          = url.data ++ '?' :: (['$', 't', 'o', 'p', '='] ++ (Nat.repr opts.maxItems).data)
      simp
    rw [e2]
    exact key '?' (by decide)

end SpRestApi

namespace SpRestApi

open SpJs

/-- C5: every delete and every update reaches the transport as exactly one
request whose HTTP method is POST, carrying the `X-HTTP-METHOD` override
header set to the logical verb (DELETE respectively MERGE) and the
unconditional-match header `IF-MATCH: *`; no literal DELETE, PATCH or
MERGE HTTP method is ever sent. -/
theorem c5_delete_update_method_override (opts : Options) (server : Server)
    (itemId item : JSVal) :
    (deleteItem opts server itemId).requests.map Request.type = ["POST"] ∧
    (deleteItem opts server itemId).requests.map
        (fun r => alookup "X-HTTP-METHOD" r.headers) = [some "DELETE"] ∧
    (deleteItem opts server itemId).requests.map
        (fun r => alookup "IF-MATCH" r.headers) = [some "*"] ∧
    (updateItem opts server itemId item).requests.map Request.type = ["POST"] ∧
    (updateItem opts server itemId item).requests.map
        (fun r => alookup "X-HTTP-METHOD" r.headers) = [some "MERGE"] ∧
    (updateItem opts server itemId item).requests.map
        (fun r => alookup "IF-MATCH" r.headers) = [some "*"] ∧
    "DELETE" ∉ (deleteItem opts server itemId).requests.map Request.type ∧
    "PATCH" ∉ (deleteItem opts server itemId).requests.map Request.type ∧
    "MERGE" ∉ (updateItem opts server itemId item).requests.map Request.type ∧
    "PATCH" ∉ (updateItem opts server itemId item).requests.map Request.type := by
  have hd : (deleteItem opts server itemId).requests
      = [mkRequest opts (generateSingleListItemUrl opts itemId) "DELETE" none] := by
    unfold deleteItem runLoadUrl
    cases server (generateSingleListItemUrl opts itemId) <;> rfl
  have hu : (updateItem opts server itemId item).requests
      = [mkRequest opts (generateSingleListItemUrl opts itemId) "MERGE"
          (some (setProp item "__metadata"
            (.obj [("type", .str (getListItemType opts.listTitle))])))] := by
    unfold updateItem runLoadUrl
    cases server (generateSingleListItemUrl opts itemId) <;> rfl
  rw [hd, hu]
  simp [mkRequest, alookup]

/-- C2 counterexample: `deleteItem` called with identifier `0` does not
fail before the transport call — it issues exactly one transport call and
completes without any synchronous throw, contradicting the claim that
both `getItem` and `deleteItem` fail with zero transport invocations. -/
theorem c2_counterexample_deleteItem_zero :
    (deleteItem sampleOptions sampleServer (JSVal.num 0)).requests.length = 1 ∧
    (deleteItem sampleOptions sampleServer (JSVal.num 0)).outcome = Outcome.done := by
  exact ⟨rfl, rfl⟩

/-- C2 (amended): for every falsy identifier (0 or the empty string),
`getItem` throws synchronously before any transport call — zero transport
invocations, neither continuation invoked — but `deleteItem` performs no
validation: it issues exactly one transport call with the falsy identifier
substituted into the URL and does not throw. -/
theorem c2_falsy_id_amended (opts : Options) (server : Server) (itemId : JSVal)
    (h : truthy itemId = false) :
    getItem opts server itemId
      = ⟨[], [], Outcome.threw "The list item ID must not be empty."⟩ ∧
    (deleteItem opts server itemId).requests.length = 1 ∧
    (deleteItem opts server itemId).outcome = Outcome.done := by
  refine ⟨by simp [getItem, h], ?_, ?_⟩
  · unfold deleteItem runLoadUrl
    cases server (generateSingleListItemUrl opts itemId) <;> rfl
  · unfold deleteItem runLoadUrl
    cases server (generateSingleListItemUrl opts itemId) <;> rfl

theorem c2_falsy_id_amended_witness :
    truthy (JSVal.num 0) = false ∧
    getItem sampleOptions sampleServer (JSVal.num 0)
      = ⟨[], [], Outcome.threw "The list item ID must not be empty."⟩ ∧
    (deleteItem sampleOptions sampleServer (JSVal.num 0)).requests.length = 1 := by
  have h := c2_falsy_id_amended sampleOptions sampleServer (JSVal.num 0) rfl
  exact ⟨rfl, h.1, h.2.1⟩

/-- C3 is a code bug: the success handler of `refreshDigest` extracts the
token from either known response shape and, per the source, executes
`this.options = <token>` — replacing the whole options value by the token
string instead of storing it in the token field. Consequently the `token`
property a subsequent request's auth header reads from the options is
`undefined`, not the received token; the claim (and the source's own
documentation, which promises that API calls work after `refreshDigest`)
says the token is stored in configuration and sent in the auth header.
The no-shape branch does throw the token-unavailable error as claimed. -/
theorem c3_refresh_digest_token_lost :
    refreshDigestSuccess tokenResponseVerbose = Except.ok (JSVal.str "TOKEN123") ∧
    refreshDigestSuccess tokenResponseNonVerbose = Except.ok (JSVal.str "TOKEN456") ∧
    propD (JSVal.str "TOKEN123") "token" = JSVal.undefined ∧
    propD (JSVal.str "TOKEN123") "token" ≠ JSVal.str "TOKEN123" ∧
    refreshDigestSuccess (JSVal.obj [])
      = Except.error "Unable to obtain SharePoint authorization token." := by
  refine ⟨rfl, rfl, rfl, ?_, rfl⟩
  intro h
  exact absurd h (by simp [propD])

/-- C9: for a single-page response (extraction succeeds with an item array
and a falsy next-link), re-wrapping the extracted items into the mode's
envelope yields a response from which extraction returns exactly the same
item sequence (and no next-link). -/
theorem c9_wrap_extract_roundtrip (verbosity : String) (r : JSVal)
    (xs : List JSVal) (next : JSVal)
    (h : extractPage verbosity r = Except.ok (JSVal.arr xs, next))
    (hn : truthy next = false) :
    extractPage verbosity (wrap verbosity xs)
      = Except.ok (JSVal.arr xs, JSVal.undefined) := by
  by_cases hv : verbosity = Verbosity.VERBOSE
  · simp [extractPage, wrap, hv, propT, alookup]
  · simp [extractPage, wrap, hv, propT, alookup]

theorem c9_wrap_extract_roundtrip_witness :
    extractPage Verbosity.VERBOSE (verbosePage [JSVal.num 1, JSVal.num 2] none)
      = Except.ok (JSVal.arr [JSVal.num 1, JSVal.num 2], JSVal.undefined) ∧
    truthy JSVal.undefined = false ∧
    extractPage Verbosity.VERBOSE (wrap Verbosity.VERBOSE [JSVal.num 1, JSVal.num 2])
      = Except.ok (JSVal.arr [JSVal.num 1, JSVal.num 2], JSVal.undefined) := by
  refine ⟨rfl, rfl, ?_⟩
  exact c9_wrap_extract_roundtrip Verbosity.VERBOSE
    (verbosePage [JSVal.num 1, JSVal.num 2] none)
    [JSVal.num 1, JSVal.num 2] JSVal.undefined rfl rfl

end SpRestApi

namespace SpRestApi

open SpJs

theorem alookup_setKey (t : List (String × JSVal)) (k k2 : String) (v : JSVal) :
    alookup k (setKey t k2 v) = if k2 = k then some v else alookup k t := by
  induction t with
  | nil => simp [setKey, alookup]
  | cons hd t ih =>
    obtain ⟨k3, v3⟩ := hd
    by_cases h32 : k3 = k2
    · subst h32
      by_cases h3k : k3 = k
      · subst h3k
        simp [setKey, alookup]
      · simp [setKey, alookup, h3k]
    · by_cases h3k : k3 = k
      · subst h3k
        have h2k : ¬ (k2 = k3) := fun h => h32 h.symm
        simp [setKey, alookup, h32, h2k]
      · simp [setKey, alookup, h32, h3k, ih]

theorem extend_alookup (src : List (String × JSVal)) :
    ∀ (t : List (String × JSVal)) (k : String),
      alookup k (extend t src)
        = match lastLookup k src with
          | some v => some v
          | none => alookup k t := by
  induction src with
  | nil =>
    intro t k
    simp [extend, lastLookup]
  | cons hd s ih =>
    intro t k
    obtain ⟨k2, v2⟩ := hd
    show alookup k (extend (setKey t k2 v2) s) = _
    rw [ih (setKey t k2 v2) k]
    cases hls : lastLookup k s with
    | some v => simp [lastLookup, hls]
    | none =>
      simp only [lastLookup, hls, alookup_setKey]
      by_cases hk : k2 = k
      · simp [hk]
      · simp [hk]

/-- C10: the constructor and `config` both merge the supplied options into
the instance's `defaultOptions` object in place and point `options` at
that same object (the two stay equal); therefore a second `config` call
merges over the values written by the first, and a field omitted from the
later call keeps the earlier call's value instead of reverting to the
original default. -/
theorem c10_config_in_place_layering (ambS ambT : String)
    (o1 o2 : List (String × JSVal)) (k : String) (v : JSVal)
    (h2 : lastLookup k o2 = none) :
    ((spRestApiNew ambS ambT []).options
        = (spRestApiNew ambS ambT []).defaultOptions) ∧
    (((spRestApiNew ambS ambT []).config o1).options
        = ((spRestApiNew ambS ambT []).config o1).defaultOptions) ∧
    ((((spRestApiNew ambS ambT []).config o1).config o2).options
        = (((spRestApiNew ambS ambT []).config o1).config o2).defaultOptions) ∧
    (alookup k (((spRestApiNew ambS ambT []).config o1).config o2).options
        = alookup k ((spRestApiNew ambS ambT []).config o1).options) ∧
    (lastLookup k o1 = some v →
      alookup k (((spRestApiNew ambS ambT []).config o1).config o2).options = some v) := by
  have hkeep : alookup k (((spRestApiNew ambS ambT []).config o1).config o2).options
      = alookup k ((spRestApiNew ambS ambT []).config o1).options := by
    show alookup k (extend ((spRestApiNew ambS ambT []).config o1).defaultOptions o2) = _
    rw [extend_alookup o2 ((spRestApiNew ambS ambT []).config o1).defaultOptions k, h2]
    rfl
  refine ⟨rfl, rfl, rfl, hkeep, ?_⟩
  intro h1
  rw [hkeep]
  show alookup k (extend (spRestApiNew ambS ambT []).defaultOptions o1) = some v
  rw [extend_alookup o1 (spRestApiNew ambS ambT []).defaultOptions k, h1]

theorem c10_config_in_place_layering_witness :
    lastLookup "listTitle" [("maxItems", JSVal.num 50)] = none ∧
    lastLookup "listTitle" [("listTitle", JSVal.str "A")] = some (JSVal.str "A") ∧
    alookup "listTitle" (((spRestApiNew "https://s" "T" []).config
        [("listTitle", JSVal.str "A")]).config [("maxItems", JSVal.num 50)]).options
      = some (JSVal.str "A") := by
  have h := c10_config_in_place_layering "https://s" "T"
    [("listTitle", JSVal.str "A")] [("maxItems", JSVal.num 50)]
    "listTitle" (JSVal.str "A") rfl
  exact ⟨rfl, rfl, h.2.2.2.2 rfl⟩

end SpRestApi

namespace SpRestApi

open SpJs

/-- C1: for a recursive fetch in Verbose mode over three pages linked by
`d.__next` (each with two items), the whole run is the trace in which each
next-page transport call is issued strictly after the previous page's
items were appended, exactly three transport calls occur, and the success
continuation runs exactly once, at the end, with all six items in served
order (wrapped in the verbose envelope). -/
theorem c1_three_page_recursive_fetch (opts : Options) (a b c d e f : JSVal)
    (u2 u3 : String)
    (hv : opts.verbosity = Verbosity.VERBOSE)
    (hr : opts.recursiveFetch = true)
    (h2 : u2 ≠ generateGetAllListItemsUrl opts)
    (h3 : u3 ≠ generateGetAllListItemsUrl opts)
    (h23 : u3 ≠ u2)
    (h2e : u2 ≠ "") (h3e : u3 ≠ "") :
    getAllItems opts (threePageServer opts a b c d e f u2 u3) 3
      = ([.call (generateGetAllListItemsUrl opts) "GET", .append (.arr [a, b]),
          .call u2 "GET", .append (.arr [c, d]),
          .call u3 "GET", .append (.arr [e, f]),
          .onsuccess (.obj [("d", .obj [("results", .arr [a, b, c, d, e, f])])])],
         Outcome.done) := by
  have hsrv1 : threePageServer opts a b c d e f u2 u3 (generateGetAllListItemsUrl opts)
      = .ok (verbosePage [a, b] (some u2)) := by
    simp [threePageServer]
  have hsrv2 : threePageServer opts a b c d e f u2 u3 u2
      = .ok (verbosePage [c, d] (some u3)) := by
    simp [threePageServer, h2]
  have hsrv3 : threePageServer opts a b c d e f u2 u3 u3
      = .ok (verbosePage [e, f] none) := by
    simp [threePageServer, h3, h23]
  have hex : ∀ (xs : List JSVal) (u : String),
      extractPage opts.verbosity (verbosePage xs (some u))
        = .ok (JSVal.arr xs, JSVal.str u) := by
    intro xs u
    simp [extractPage, hv, verbosePage, propT, alookup]
  have hexn : ∀ (xs : List JSVal),
      extractPage opts.verbosity (verbosePage xs none)
        = .ok (JSVal.arr xs, JSVal.undefined) := by
    intro xs
    simp [extractPage, hv, verbosePage, propT, alookup]
  have hwrap : ∀ (xs : List JSVal),
      wrap opts.verbosity xs = JSVal.obj [("d", JSVal.obj [("results", JSVal.arr xs)])] := by
    intro xs
    simp [wrap, hv]
  have ht2 : truthy (JSVal.str u2) = true := by simp [truthy, h2e]
  have ht3 : truthy (JSVal.str u3) = true := by simp [truthy, h3e]
  have htu : truthy JSVal.undefined = false := rfl
  simp only [getAllItems, hr, if_true, hsrv1, continueRecursiveFetch, hex, hexn,
    jsConcat, ht2, ht3, htu, jsToString, hsrv2, hsrv3, hwrap,
    List.nil_append, List.cons_append, Bool.true_eq_false, if_false,
    Bool.false_eq_true, ite_true, ite_false]

end SpRestApi

namespace SpRestApi

open SpJs

theorem crf_onerror_inv (opts : Options) (server : Server) :
    ∀ (fuel : Nat) (cache : List JSVal) (data : JSVal) (e : JSVal),
      TraceEv.onerror e ∈ (continueRecursiveFetch opts server fuel cache data).1 →
      (continueRecursiveFetch opts server fuel cache data).1.countP isOnerror = 1 ∧
      (continueRecursiveFetch opts server fuel cache data).1.countP isOnsuccess = 0 ∧
      (∃ u, server u = Except.error e) := by
  intro fuel
  induction fuel with
  | zero =>
    intro cache data e hmem
    cases hext : extractPage opts.verbosity data with
    | error msg =>
      simp only [continueRecursiveFetch, hext] at hmem
      simp at hmem
    | ok p =>
      obtain ⟨newData, nextUrl⟩ := p
      simp only [continueRecursiveFetch, hext] at hmem
      by_cases htr : truthy nextUrl
      · simp [htr] at hmem
      · simp [htr, isOnerror] at hmem
  | succ fuel ih =>
    intro cache data e hmem
    cases hext : extractPage opts.verbosity data with
    | error msg =>
      simp only [continueRecursiveFetch, hext] at hmem
      simp at hmem
    | ok p =>
      obtain ⟨newData, nextUrl⟩ := p
      by_cases htr : truthy nextUrl
      · cases hsrv : server (jsToString nextUrl) with
        | ok dta =>
          rw [continueRecursiveFetch] at hmem ⊢
          simp only [hext] at hmem ⊢
          simp [htr, hsrv, List.countP_cons, isOnerror, isOnsuccess] at hmem ⊢
          obtain ⟨c1, c0, hexu⟩ := ih (jsConcat cache newData) dta e hmem
          refine ⟨by simpa using c1, by simpa using c0, hexu⟩
        | error e2 =>
          rw [continueRecursiveFetch] at hmem ⊢
          simp only [hext] at hmem ⊢
          simp [htr, hsrv, List.countP_cons, isOnerror, isOnsuccess] at hmem ⊢
          subst hmem
          exact ⟨jsToString nextUrl, hsrv⟩
      · rw [continueRecursiveFetch] at hmem
        simp only [hext] at hmem
        simp [htr] at hmem

/-- C4: in any recursive fetch in which a transport error is reported, the
failure continuation runs exactly once, its payload is the raw error the
transport delivered for the failing page, and the success continuation
never runs — so items accumulated from earlier pages are never delivered. -/
theorem c4_failure_aborts_without_partial_result (opts : Options) (server : Server)
    (fuel : Nat) (e : JSVal)
    (hr : opts.recursiveFetch = true)
    (hmem : TraceEv.onerror e ∈ (getAllItems opts server fuel).1) :
    (getAllItems opts server fuel).1.countP isOnerror = 1 ∧
    (getAllItems opts server fuel).1.countP isOnsuccess = 0 ∧
    (∃ u, server u = Except.error e) := by
  cases hsrv : server (generateGetAllListItemsUrl opts) with
  | ok d =>
    simp only [getAllItems, hr, if_true, hsrv] at hmem ⊢
    simp only [List.mem_cons] at hmem
    rcases hmem with h1 | h1
    · exact absurd h1 (by simp)
    · obtain ⟨c1, c0, hexu⟩ := crf_onerror_inv opts server fuel [] d e h1
      refine ⟨?_, ?_, hexu⟩
      · simp [List.countP_cons, isOnerror, c1]
      · simp [List.countP_cons, isOnsuccess, c0]
  | error e2 =>
    simp only [getAllItems, hr, if_true, hsrv] at hmem ⊢
    have he : e = e2 := by
      simpa using hmem
    subst he
    refine ⟨by simp [List.countP_cons, isOnerror],
      by simp [List.countP_cons, isOnsuccess],
      ⟨generateGetAllListItemsUrl opts, hsrv⟩⟩

theorem c4_failure_aborts_witness :
    (TraceEv.onerror (JSVal.str "boom")
      ∈ (getAllItems sampleOptions
          (secondPageFailServer sampleOptions (JSVal.num 1) (JSVal.num 2)
            "https://fail/p2" (JSVal.str "boom")) 3).1) ∧
    (getAllItems sampleOptions
        (secondPageFailServer sampleOptions (JSVal.num 1) (JSVal.num 2)
          "https://fail/p2" (JSVal.str "boom")) 3).1.countP isOnerror = 1 ∧
    (getAllItems sampleOptions
        (secondPageFailServer sampleOptions (JSVal.num 1) (JSVal.num 2)
          "https://fail/p2" (JSVal.str "boom")) 3).1.countP isOnsuccess = 0 := by
  have heq : (getAllItems sampleOptions
      (secondPageFailServer sampleOptions (JSVal.num 1) (JSVal.num 2)
        "https://fail/p2" (JSVal.str "boom")) 3).1
      = [TraceEv.call (generateGetAllListItemsUrl sampleOptions) "GET",
         TraceEv.append (JSVal.arr [JSVal.num 1, JSVal.num 2]),
         TraceEv.call "https://fail/p2" "GET",
         TraceEv.onerror (JSVal.str "boom")] := rfl
  have hmem : TraceEv.onerror (JSVal.str "boom")
      ∈ (getAllItems sampleOptions
          (secondPageFailServer sampleOptions (JSVal.num 1) (JSVal.num 2)
            "https://fail/p2" (JSVal.str "boom")) 3).1 := by
    rw [heq]
    simp
  have h := c4_failure_aborts_without_partial_result sampleOptions
    (secondPageFailServer sampleOptions (JSVal.num 1) (JSVal.num 2)
      "https://fail/p2" (JSVal.str "boom")) 3 (JSVal.str "boom") rfl hmem
  exact ⟨hmem, h.1, h.2.1⟩

/-- C6 counterexample: for a Verbose-mode response whose body lacks the
`d` container, the recursive-fetch success handler does not surface any
failure through the failure continuation — the run ends in an uncaught
synchronous TypeError and no failure-continuation invocation appears in
the trace, contradicting the claim. -/
theorem c6_counterexample_uncaught_throw :
    (getAllItems sampleOptions (constServer (JSVal.obj [("x", JSVal.num 1)])) 3).2
      = Outcome.threw "TypeError" ∧
    (getAllItems sampleOptions
        (constServer (JSVal.obj [("x", JSVal.num 1)])) 3).1.countP isOnerror = 0 := by
  exact ⟨rfl, rfl⟩

/-- C6 (amended): in Verbose mode a response missing the expected container
is not surfaced as a failure through the failure continuation. When the
`d` member is absent, reading `results` off `undefined` throws an uncaught
TypeError inside the success callback and neither continuation runs; when
`d` is present but `d.results` is absent, the `undefined` container is
silently appended to the buffer as a single element and the success
continuation is invoked with that wrong result. -/
theorem c6_malformed_response_amended (opts : Options) (server : Server)
    (fuel : Nat) (cache : List JSVal) (data1 data2 : JSVal)
    (fs : List (String × JSVal))
    (hv : opts.verbosity = Verbosity.VERBOSE)
    (h1 : propT data1 "d" = Except.ok JSVal.undefined)
    (h2 : propT data2 "d" = Except.ok (JSVal.obj fs))
    (hres : alookup "results" fs = none)
    (hnext : alookup "__next" fs = none) :
    continueRecursiveFetch opts server fuel cache data1
      = ([], Outcome.threw "TypeError") ∧
    continueRecursiveFetch opts server fuel cache data2
      = ([.append JSVal.undefined,
          .onsuccess (wrap opts.verbosity (cache ++ [JSVal.undefined]))], Outcome.done) := by
  constructor
  · have hstep : propT JSVal.undefined "results" = Except.error "TypeError" := rfl
    have hext : extractPage opts.verbosity data1 = .error "TypeError" := by
      simp [extractPage, hv, h1, hstep]
    cases fuel <;> simp [continueRecursiveFetch, hext]
  · have hd2 : propT (JSVal.obj fs) "results" = Except.ok JSVal.undefined := by
      simp [propT, hres]
    have hd3 : propT (JSVal.obj fs) "__next" = Except.ok JSVal.undefined := by
      simp [propT, hnext]
    have hext : extractPage opts.verbosity data2 = .ok (JSVal.undefined, JSVal.undefined) := by
      simp [extractPage, hv, h2, hd2, hd3]
    cases fuel <;> simp [continueRecursiveFetch, hext, jsConcat, truthy]

theorem c6_malformed_response_amended_witness :
    propT (JSVal.obj [("x", JSVal.num 1)]) "d" = Except.ok JSVal.undefined ∧
    propT (JSVal.obj [("d", JSVal.obj [])]) "d" = Except.ok (JSVal.obj []) ∧
    continueRecursiveFetch sampleOptions sampleServer 3 [] (JSVal.obj [("x", JSVal.num 1)])
      = ([], Outcome.threw "TypeError") ∧
    continueRecursiveFetch sampleOptions sampleServer 3 [] (JSVal.obj [("d", JSVal.obj [])])
      = ([TraceEv.append JSVal.undefined,
          TraceEv.onsuccess (wrap sampleOptions.verbosity [JSVal.undefined])], Outcome.done) := by
  have h := c6_malformed_response_amended sampleOptions sampleServer 3 []
    (JSVal.obj [("x", JSVal.num 1)]) (JSVal.obj [("d", JSVal.obj [])]) []
    rfl rfl rfl rfl rfl
  exact ⟨rfl, rfl, h.1, h.2⟩

end SpRestApi

namespace SpRestApi

open SpJs

theorem c1_three_page_recursive_fetch_witness :
    ("https://next/2" ≠ generateGetAllListItemsUrl sampleOptions) ∧
    ("https://next/3" ≠ generateGetAllListItemsUrl sampleOptions) ∧
    getAllItems sampleOptions
        (threePageServer sampleOptions (JSVal.num 1) (JSVal.num 2) (JSVal.num 3)
          (JSVal.num 4) (JSVal.num 5) (JSVal.num 6) "https://next/2" "https://next/3") 3
      = ([.call (generateGetAllListItemsUrl sampleOptions) "GET",
          .append (.arr [JSVal.num 1, JSVal.num 2]),
          .call "https://next/2" "GET",
          .append (.arr [JSVal.num 3, JSVal.num 4]),
          .call "https://next/3" "GET",
          .append (.arr [JSVal.num 5, JSVal.num 6]),
          .onsuccess (.obj [("d", .obj [("results",
            .arr [JSVal.num 1, JSVal.num 2, JSVal.num 3, JSVal.num 4,
              JSVal.num 5, JSVal.num 6])])])],
         Outcome.done) := by
  refine ⟨by decide, by decide, ?_⟩
  exact c1_three_page_recursive_fetch sampleOptions (JSVal.num 1) (JSVal.num 2)
    (JSVal.num 3) (JSVal.num 4) (JSVal.num 5) (JSVal.num 6)
    "https://next/2" "https://next/3"
    rfl rfl (by decide) (by decide) (by decide) (by decide) (by decide)

end SpRestApi
